import Mathlib

/-!
Verification of the huskki vehicle-telemetry core against its natural-language
specification.  The definitions below are shallow embeddings of the Go source:

* the binary frame codec (`crc8Round`, `crc8Update`, `crc8UpdateBuf`,
  `writeFrameBytes`, `readBinaryFrame`) from `drivers/binary.go` and the
  `writeFrame` logger in `drivers/socket_can.go`;
* the K701 seed/key generator (`generateK701Key`) from the `ecus` package;
* the DID decode table (`parseDIDBytes`) from the `ecus` package;
* the DID polling scheduler selection and per-response dedup/emission logic
  from the `SocketCAN.Run` loop in `drivers/socket_can.go`;
* the per-stream window post-processing (`postProcess`) from the
  `models.Stream.PostProcess` method.

Machine integers are modelled as `Nat` with explicit `% 2^w` at every point
where the Go code's fixed-width types wrap; `float64` sample values are
modelled as exact rationals, with the one transcendental call (`math.Pow`
in the barometric-altitude formula) kept as an explicit function parameter.
-/

namespace Huskki

/-! ## CRC-8-CCITT (poly 0x07, init 0x00), from `crc8Update`/`crc8UpdateBuf` -/

/-- One iteration of the shift loop inside `crc8Update` (binary.go): shift the
byte left and xor with the polynomial 0x07 when the top bit was set. -/
def crc8Round (crc : Nat) : Nat :=
  if crc &&& 0x80 ≠ 0 then ((crc <<< 1) ^^^ 0x07) % 256 else (crc <<< 1) % 256

/-- `crc8Update(crc, b)` from binary.go: xor in the byte, then 8 shift rounds. -/
def crc8Update (crc b : Nat) : Nat :=
  crc8Round^[8] ((crc ^^^ b) % 256)

/-- `crc8UpdateBuf(crc, buffer)` from binary.go: fold `crc8Update` over a buffer. -/
def crc8UpdateBuf (crc : Nat) (buffer : List Nat) : Nat :=
  buffer.foldl crc8Update crc

/-- Explicit inverse of `crc8Round` on bytes, used to show the round is
injective (the polynomial has a nonzero constant term, so the low bit of the
output records whether 0x07 was xored in). -/
def crc8RoundInv (c : Nat) : Nat :=
  if c % 2 = 1 then ((c ^^^ 0x07) >>> 1) + 128 else c >>> 1

/-! ## Frame codec, from `readBinaryFrame` (binary.go) and `writeFrame`
(socket_can.go).  Layout: `[AA 55][millis:u32 LE][DID:u16 BE][len:u8]
[data:len][crc8]`. -/

/-- A decoded frame, mirroring the `Frame` struct (`Millis`, `DID`, `Data`). -/
structure Frame where
  millis : Nat
  did : Nat
  data : List Nat
  deriving Repr, DecidableEq

/-- The error outcomes of `readBinaryFrame`: `io.EOF`, `io.ErrUnexpectedEOF`
(partial `io.ReadFull`), `badLenErr` and `badCrcErr`. -/
inductive DecodeError where
  | eof
  | unexpectedEof
  | badLen
  | badCrc
  deriving Repr, DecidableEq

/-- The resync loop at the top of `readBinaryFrame`: scan bytes until a
0xAA; then examine the following byte: 0x55 completes the magic, any other
byte is consumed and scanning restarts.  `none` models `io.EOF` from
`ReadByte`.  Returns the bytes after the magic. -/
def resyncMagic : List Nat → Option (List Nat)
  | [] => none
  | a :: rest =>
    if a = 0xAA then
      match rest with
      | [] => none
      | b :: r2 => if b = 0x55 then some r2 else resyncMagic r2
    else resyncMagic rest

/-- `io.ReadFull` on a byte list: `n` bytes or an error (`eof` when nothing
was available, `unexpectedEof` on a short read). -/
def readFull (n : Nat) (l : List Nat) : Except DecodeError (List Nat × List Nat) :=
  if n ≤ l.length then .ok (l.take n, l.drop n)
  else if l.isEmpty then .error .eof
  else .error .unexpectedEof

/-- Tail of `readBinaryFrame` once header and `len+1` tail bytes are in hand:
split payload and CRC, recompute the CRC over millis, DID, len and payload
exactly as the source does, compare, and reassemble the fields
(`millis` little-endian, `did` big-endian). -/
def decodePayload (header tail rest2 : List Nat) : Except DecodeError (Frame × List Nat) :=
  let dataLength := header.getD 6 0
  let data := tail.take dataLength
  let crcRx := tail.getD dataLength 0
  let crc := crc8UpdateBuf (crc8Update (crc8Update (crc8Update
      (crc8UpdateBuf 0 (header.take 4)) (header.getD 4 0))
      (header.getD 5 0)) (header.getD 6 0)) data
  if crc ≠ crcRx then .error .badCrc
  else
    .ok (⟨header.getD 0 0 ||| (header.getD 1 0 <<< 8) |||
          (header.getD 2 0 <<< 16) ||| (header.getD 3 0 <<< 24),
          (header.getD 4 0 <<< 8) ||| header.getD 5 0,
          data⟩, rest2)

/-- `readBinaryFrame` after the 7 header bytes: validate the length byte
(`badLenErr` when above 64), then read `len` payload bytes plus the CRC. -/
def decodeAfterHeader (header rest : List Nat) : Except DecodeError (Frame × List Nat) :=
  if header.getD 6 0 > 64 then .error .badLen
  else (readFull (header.getD 6 0 + 1) rest).bind fun p => decodePayload header p.1 p.2

/-- `readBinaryFrame` after the magic: read the 7 header bytes
(millis LE ++ DID BE ++ len). -/
def decodeAfterMagic (s : List Nat) : Except DecodeError (Frame × List Nat) :=
  (readFull 7 s).bind fun p => decodeAfterHeader p.1 p.2

/-- `readBinaryFrame` (binary.go): resynchronise on the AA 55 magic, then
decode one frame; also returns the unconsumed input. -/
def readBinaryFrame (input : List Nat) : Except DecodeError (Frame × List Nat) :=
  (resyncMagic input).elim (.error .eof) decodeAfterMagic

/-- `writeFrame` (socket_can.go): magic, millis little-endian, DID big-endian,
length byte, payload, then the CRC over everything after the magic.  Each
`byte(x)` cast is an explicit `% 256`. -/
def writeFrameBytes (ms did : Nat) (data : List Nat) : List Nat :=
  let hdr : List Nat := [ms % 256, (ms >>> 8) % 256, (ms >>> 16) % 256, (ms >>> 24) % 256,
    (did >>> 8) % 256, did % 256, data.length % 256]
  let crc := crc8UpdateBuf (crc8Update (crc8Update (crc8Update
      (crc8UpdateBuf 0 (hdr.take 4)) (hdr.getD 4 0)) (hdr.getD 5 0)) (hdr.getD 6 0)) data
  0xAA :: 0x55 :: (hdr ++ (data ++ [crc]))

/-- The six timestamp/DID bytes of an encoded frame header (millis
little-endian then DID big-endian), before the length byte. -/
def hdr6 (ms did : Nat) : List Nat :=
  [ms % 256, (ms >>> 8) % 256, (ms >>> 16) % 256, (ms >>> 24) % 256,
   (did >>> 8) % 256, did % 256]

/-- Whether a byte list contains the adjacent pair 0xAA 0x55 (the frame
magic) anywhere. -/
def containsMagicPair : List Nat → Bool
  | [] => false
  | [_] => false
  | a :: b :: rest => (a = 0xAA && b = 0x55) || containsMagicPair (b :: rest)

/-- Flip bit `b` of the byte at index `i` of a byte list: the single-bit
corruption considered by the CRC-rejection property. -/
def flipBitAt : List Nat → Nat → Nat → List Nat
  | [], _, _ => []
  | x :: rest, 0, b => (x ^^^ (1 <<< b)) :: rest
  | x :: rest, i + 1, b => x :: flipBitAt rest i b

/-! ## K701 seed/key generator, from `ecus.GenerateK701Key` -/

/-- The shared tail of `GenerateK701Key` once the magic number is selected:
combine the seed bytes into a 16-bit value, multiply in uint16 arithmetic,
mask, and split the key big-endian.  Each Go cast is an explicit wrap. -/
def k701KeySplit (magicNumber seedHi seedLo : Nat) : Nat × Nat :=
  let x := ((seedHi <<< 8) % 65536) ||| seedLo
  let key := ((magicNumber * x) % 65536) &&& 0xFFFF
  (((key >>> 8) &&& 0xFF) % 256, (key &&& 0xFF) % 256)

/-- `ecus.GenerateK701Key`: level 1 has no magic number and is an error,
level 2 uses 0x4D4E, level 3 uses 0x6F31, anything else is an error. -/
def generateK701Key (level : Int) (seedHi seedLo : Nat) : Except String (Nat × Nat) :=
  if level = 1 then .error "missing magic number for Level 1"
  else if level = 2 then .ok (k701KeySplit 0x4D4E seedHi seedLo)
  else if level = 3 then .ok (k701KeySplit 0x6F31 seedHi seedLo)
  else .error "invalid level security level requested"

/-! ## ECU decode table, from `ecus.K701.ParseDIDBytes`

Sample values (`float64` in the source) are modelled as exact rationals;
`math.Pow` in the barometric-altitude formula is kept as an explicit
function parameter `pow`. -/

/-- `math.Round`: round half away from zero. -/
def goRound (q : ℚ) : ℤ :=
  if q < 0 then -(⌊-q + 1 / 2⌋) else ⌊q + 1 / 2⌋

/-- `utils.RoundToXDp`: scale by a power of ten, round, scale back. -/
def roundToXDp (f : ℚ) (dp : Nat) : ℚ :=
  (goRound (f * 10 ^ dp) : ℚ) / 10 ^ dp

/-- `utils.BoolToFloat`. -/
def boolToFloat (b : Bool) : ℚ :=
  if b then 1 else 0

/-- One decoded sample: `ecus.DIDData` (`StreamKey`, `DidValue`). -/
structure DIDData where
  streamKey : String
  didValue : ℚ
  deriving Repr, DecidableEq

/-! DID codes from the `ecus` package. -/

def RpmDidK701 : Nat := 0x0100
def ThrottleDidK701 : Nat := 0x0001
def GripDidK701 : Nat := 0x0070
def TpsDidK701 : Nat := 0x0076
def CoolantDidK701 : Nat := 0x0009
def GearDidK701 : Nat := 0x0031
def InjectionTimeDidK701 : Nat := 0x0110
def LeversDidK701 : Nat := 0x0030
def O2Cyl1VoltageDidK701 : Nat := 0x0012
def O2Cyl1CompensationDidK701 : Nat := 0x0102
def O2Cyl1AdcDidK701 : Nat := 0x1009
def O2Cyl1ExtendedK701 : Nat := 0xE5002
def IAPVoltageDidK701 : Nat := 0x0002
def IapDidK701 : Nat := 0x0003
def IgnitionCyl1Coil1DidK701 : Nat := 0x0120
def IgnitionCyl1Coil2DidK701 : Nat := 0x0108
def DwellTimeCyl1Coil1DidK701 : Nat := 0x0130
def DwellTimeCyl1Coil2DidK701 : Nat := 0x0132
def SASValveDidK701 : Nat := 0x0064
def SideStandDidK701 : Nat := 0x0042
def EngineLoadDidK701 : Nat := 0x0007
def AtmosphericPressureDidK701 : Nat := 0x0004
def AtmosphericPressureSensorVoltageDidK701 : Nat := 0x0005

/-! Stream keys from `store/dashboard.go`.  The constants marked "not in
src" are referenced by the `ecus` package but their defining store variant
is not among the source files; their string values follow the same naming
scheme and no claim depends on them. -/

def RPM_STREAM : String := "RPM"
def THROTTLE_STREAM : String := "Computed-Throttle"
def GRIP_STREAM : String := "Input-Throttle"
def TPS_STREAM : String := "TPS"
def COOLANT_STREAM : String := "Coolant"
def GEAR_STREAM : String := "Gear"
def INJECTION_TIME_STREAM : String := "Injection-Time"
def CLUTCH_STREAM : String := "Clutch"
def SIDESTAND_STREAM : String := "Side-Stand"
def IAP_STREAM : String := "IAP"
def CYL1_COIL1_STREAM : String := "Coil-1-Current"
def CYL1_COIL2_STREAM : String := "Coil-2-Current"
def CYL1_COIL1_DWELL_STREAM : String := "Coil-1-Dwell"
def CYL1_COIL2_DWELL_STREAM : String := "Coil-2-Dwell"
def ENGINE_LOAD_STREAM : String := "Engine-Load"
def BARO_VOLT_STREAM : String := "Baro-Volt"
def BARO_STREAM : String := "Baro"
/-- Not in src (see section comment). -/
def SAS_VALVE_STREAM : String := "SAS-Valve"
/-- Not in src (see section comment). -/
def CYL1_O2_VOLT_STREAM : String := "Cyl1-O2-Voltage"
/-- Not in src (see section comment). -/
def CYL1_O2_COMP_STREAM : String := "Cyl1-O2-Comp"
/-- Not in src (see section comment). -/
def CYL1_O2_ADC_STREAM : String := "Cyl1-O2-ADC"
/-- Not in src (see section comment). -/
def CYL1_O2_EXTENDED_STREAM : String := "Cyl1-O2-Extended"
/-- Not in src (see section comment). -/
def IAP_VOLTAGE_STREAM : String := "IAP-Voltage"
/-- Not in src (see section comment). -/
def FRONT_BRAKE_STREAM : String := "Front-Brake"

/-- `int(dataBytes[0])<<8 | int(dataBytes[1])`, the big-endian 16-bit read
used throughout the decode table (always guarded by a length check). -/
def be16 (dataBytes : List Nat) : Nat :=
  (dataBytes.getD 0 0 <<< 8) ||| dataBytes.getD 1 0

/-- The Coolant branch of `ParseDIDBytes`: starts from the −40 offset and
adds the reading when at least one byte is present; note it returns a
sample even for an empty payload. -/
def coolantTemp (dataBytes : List Nat) : ℚ :=
  -40 + (if 2 ≤ dataBytes.length then (be16 dataBytes : ℚ)
         else if dataBytes.length = 1 then (dataBytes.getD 0 0 : ℚ) else 0)

/-- `ecus.K701.ParseDIDBytes`: dispatch on the DID, validate the minimum
payload length, decode zero or more samples.  The Go `switch` is an
if-chain here; each branch mirrors its source formula exactly. -/
def parseDIDBytes (pow : ℚ → ℚ → ℚ) (did : Nat) (dataBytes : List Nat) : List DIDData :=
  if did = RpmDidK701 then
    if 2 ≤ dataBytes.length then
      [⟨RPM_STREAM, (be16 dataBytes : ℚ) / 4⟩]
    else []
  else if did = ThrottleDidK701 then
    if 1 ≤ dataBytes.length then
      [⟨THROTTLE_STREAM, roundToXDp ((dataBytes.getD (dataBytes.length - 1) 0 : ℚ) / 255 * 100) 1⟩]
    else []
  else if did = GripDidK701 then
    if 1 ≤ dataBytes.length then
      [⟨GRIP_STREAM, roundToXDp ((dataBytes.getD (dataBytes.length - 1) 0 : ℚ) / 255 * 100) 1⟩]
    else []
  else if did = TpsDidK701 then
    if 2 ≤ dataBytes.length then
      [⟨TPS_STREAM, roundToXDp ((be16 dataBytes : ℚ) / 1023 * 100) 1⟩]
    else []
  else if did = CoolantDidK701 then
    [⟨COOLANT_STREAM, coolantTemp dataBytes⟩]
  else if did = GearDidK701 then
    if 2 ≤ dataBytes.length then
      [⟨GEAR_STREAM, (dataBytes.getD 1 0 : ℚ)⟩]
    else []
  else if did = InjectionTimeDidK701 then
    if 2 ≤ dataBytes.length then
      [⟨INJECTION_TIME_STREAM, roundToXDp ((be16 dataBytes : ℚ) / 1000) 2⟩]
    else []
  else if did = SideStandDidK701 then
    if 2 ≤ dataBytes.length then
      [⟨SIDESTAND_STREAM, boolToFloat (dataBytes.getD 1 0 == 0xFF)⟩]
    else []
  else if did = SASValveDidK701 then
    if 2 ≤ dataBytes.length then
      [⟨SAS_VALVE_STREAM, boolToFloat (dataBytes.getD 1 0 == 0xFF)⟩]
    else []
  else if did = O2Cyl1VoltageDidK701 then
    if 2 ≤ dataBytes.length then
      [⟨CYL1_O2_VOLT_STREAM, roundToXDp ((be16 dataBytes : ℚ) / 1023 * 5) 2⟩]
    else []
  else if did = O2Cyl1CompensationDidK701 then
    if 2 ≤ dataBytes.length then
      [⟨CYL1_O2_COMP_STREAM, roundToXDp ((be16 dataBytes : ℚ) / 32768 - 1) 2⟩]
    else []
  else if did = O2Cyl1AdcDidK701 then
    if 2 ≤ dataBytes.length then
      [⟨CYL1_O2_ADC_STREAM, (be16 dataBytes : ℚ)⟩]
    else []
  else if did = O2Cyl1ExtendedK701 then
    if 2 ≤ dataBytes.length then
      [⟨CYL1_O2_EXTENDED_STREAM, roundToXDp ((be16 dataBytes : ℚ) / 500) 2⟩]
    else []
  else if did = IAPVoltageDidK701 then
    if 2 ≤ dataBytes.length then
      [⟨IAP_VOLTAGE_STREAM, (be16 dataBytes : ℚ)⟩]
    else []
  else if did = IapDidK701 then
    if 2 ≤ dataBytes.length then
      [⟨IAP_STREAM, (be16 dataBytes : ℚ)⟩]
    else []
  else if did = IgnitionCyl1Coil1DidK701 then
    if 2 ≤ dataBytes.length then
      [⟨CYL1_COIL1_STREAM, roundToXDp ((be16 dataBytes : ℚ) / 10) 1⟩]
    else []
  else if did = IgnitionCyl1Coil2DidK701 then
    if 2 ≤ dataBytes.length then
      [⟨CYL1_COIL2_STREAM, roundToXDp ((be16 dataBytes : ℚ) / 10) 1⟩]
    else []
  else if did = DwellTimeCyl1Coil1DidK701 then
    if 2 ≤ dataBytes.length then
      [⟨CYL1_COIL1_DWELL_STREAM, roundToXDp ((be16 dataBytes : ℚ) / 1000) 2⟩]
    else []
  else if did = DwellTimeCyl1Coil2DidK701 then
    if 2 ≤ dataBytes.length then
      [⟨CYL1_COIL2_DWELL_STREAM, roundToXDp ((be16 dataBytes : ℚ) / 1000) 2⟩]
    else []
  else if did = EngineLoadDidK701 then
    if 1 ≤ dataBytes.length then
      [⟨ENGINE_LOAD_STREAM, roundToXDp ((dataBytes.getD (dataBytes.length - 1) 0 : ℚ) / 255 * 100) 1⟩]
    else []
  else if did = AtmosphericPressureSensorVoltageDidK701 then
    if 2 ≤ dataBytes.length then
      [⟨BARO_VOLT_STREAM, roundToXDp ((be16 dataBytes : ℚ) / 10000) 3⟩]
    else []
  else if did = AtmosphericPressureDidK701 then
    if 2 ≤ dataBytes.length then
      [⟨BARO_STREAM, roundToXDp (44330 * (1 -
        pow ((be16 dataBytes : ℚ) * (133322 / 100000) / (101325 / 100)) (1903 / 10000))) 1⟩]
    else []
  else if did = LeversDidK701 then
    if 2 ≤ dataBytes.length then
      [⟨CLUTCH_STREAM, boolToFloat (dataBytes.getD 0 0 == 0xFF)⟩,
       ⟨FRONT_BRAKE_STREAM, roundToXDp ((dataBytes.getD 1 0 : ℚ) / 255 * 100) 1⟩]
    else []
  else []

/-- The DIDs that `ParseDIDBytes` has a case for. -/
def knownDIDsK701 : List Nat :=
  [RpmDidK701, ThrottleDidK701, GripDidK701, TpsDidK701, CoolantDidK701, GearDidK701,
   InjectionTimeDidK701, SideStandDidK701, SASValveDidK701, O2Cyl1VoltageDidK701,
   O2Cyl1CompensationDidK701, O2Cyl1AdcDidK701, O2Cyl1ExtendedK701, IAPVoltageDidK701,
   IapDidK701, IgnitionCyl1Coil1DidK701, IgnitionCyl1Coil2DidK701, DwellTimeCyl1Coil1DidK701,
   DwellTimeCyl1Coil2DidK701, EngineLoadDidK701, AtmosphericPressureSensorVoltageDidK701,
   AtmosphericPressureDidK701, LeversDidK701]

/-- The minimum payload length each table entry checks before decoding
(the three last-byte decoders and Coolant accept a single byte). -/
def minLenK701 (did : Nat) : Nat :=
  if did = ThrottleDidK701 ∨ did = GripDidK701 ∨ did = EngineLoadDidK701 ∨
      did = CoolantDidK701 then 1
  else 2

/-! ## Scheduler response processing, from `SocketCAN.Run` (socket_can.go)

The emission path of the `Run` loop: per-DID dedup via a one-byte XOR
fingerprint plus the payload length, then for a changed payload decode via
`ParseDIDBytes` and push each sample to its dashboard stream, with a
carry-over point for discrete streams, then write the raw frame to the log
and record the new fingerprint.  The dashboard store is modelled as an
association list keeping what this path reads and writes of a
`models.Stream`: the `discrete` flag and the latest point. -/

/-- One emitted sample: an `Add(timestamp, value)` call on a named stream. -/
structure Sample where
  streamKey : String
  timestamp : Int
  value : ℚ
  deriving Repr, DecidableEq

/-- The slice of `models.Stream` state this path touches: `discrete` and the
`latest` data point (zero-valued for a fresh stream, as `DataPoint{}`). -/
structure StreamSt where
  discrete : Bool
  latestTs : Int
  latestVal : ℚ
  deriving Repr, DecidableEq

/-- `models.Stream.Add`: record the new latest point. -/
def streamAdd (s : StreamSt) (ts : Int) (v : ℚ) : StreamSt :=
  { s with latestTs := ts, latestVal := v }

/-- Write back one stream of the store (Go map assignment; keys unique). -/
def updateStore (store : List (String × StreamSt)) (key : String) (s : StreamSt) :
    List (String × StreamSt) :=
  store.map fun kv => if kv.1 = key then (kv.1, s) else kv

/-- The body of the `for _, didDatum := range didData` loop in `Run`:
skip empty keys and unknown streams; for a discrete stream first `Add` a
carry-over point with the stream's previous latest value at the same `now`
timestamp, then `Add` the new value.  The second component of the
accumulator logs every `Add` call in order. -/
def pushDidDatum (now : Int) : List (String × StreamSt) × List Sample → DIDData →
    List (String × StreamSt) × List Sample
  | (store, log), d =>
    if d.streamKey ≠ "" then
      match store.lookup d.streamKey with
      | some s =>
        if s.discrete then
          (updateStore store d.streamKey (streamAdd (streamAdd s now s.latestVal) now d.didValue),
           log ++ [⟨d.streamKey, now, s.latestVal⟩, ⟨d.streamKey, now, d.didValue⟩])
        else
          (updateStore store d.streamKey (streamAdd s now d.didValue),
           log ++ [⟨d.streamKey, now, d.didValue⟩])
      | none => (store, log)
    else (store, log)

/-- The whole didData loop. -/
def pushDidData (store : List (String × StreamSt)) (now : Int) (didData : List DIDData) :
    List (String × StreamSt) × List Sample :=
  didData.foldl (pushDidDatum now) (store, [])

/-- The Go `var chk byte; for _, b := range data { chk ^= b }`. -/
def xorChk (data : List Nat) : Nat :=
  data.foldl (fun c b => c ^^^ b) 0

/-- The per-DID dedup row: `lastChk` and `lastLen` (both bytes). -/
structure DedupSt where
  lastChk : Nat
  lastLen : Nat
  deriving Repr, DecidableEq

/-- Processing of one successful RDBI payload in `Run` (socket_can.go):
compute the XOR fingerprint, compare fingerprint and length byte with the
stored row; when unchanged do nothing; when changed decode and push the
samples, write the raw frame (the final `Bool`), and record the new row. -/
def processRdbiData (pow : ℚ → ℚ → ℚ) (store : List (String × StreamSt)) (dedup : DedupSt)
    (now : Int) (did : Nat) (data : List Nat) :
    List (String × StreamSt) × DedupSt × List Sample × Bool :=
  if xorChk data ≠ dedup.lastChk ∨ data.length % 256 ≠ dedup.lastLen then
    ((pushDidData store now (parseDIDBytes pow did data)).1,
     ⟨xorChk data, data.length % 256⟩,
     (pushDidData store now (parseDIDBytes pow did data)).2, true)
  else (store, dedup, [], false)

/-! ## Scheduler DID selection, from the `Run` loop of `SocketCAN`
(socket_can.go)

Per iteration the loop scans the DID table starting after the previously
polled index, picks the first DID whose poll interval has elapsed (or that
has never been polled), issues one RDBI for it and stamps its `lastRead`;
when none is due it sleeps until the earliest deadline.  Times are opaque
naturals; `lastRead = none` models the zero `time.Time`. -/

/-- One per-DID scheduler row: the configured poll interval and the time of
the last issued poll (if any). -/
structure SchedEntry where
  interval : Nat
  lastRead : Option Nat
  deriving Repr, DecidableEq

/-- The readiness test of the selection loop: never polled, or
`time.Until(lastRead.Add(interval)) ≤ 0`, i.e. `lastRead + interval ≤ now`. -/
def isReady (e : SchedEntry) (now : Nat) : Bool :=
  match e.lastRead with
  | none => true
  | some t => t + e.interval ≤ now

/-- The selection scan: try `n` indices starting at `startIdx`, wrapping
modulo `n`, and return the first ready one; `none` when every DID still has
to wait (the loop then sleeps). -/
def findReady (entries : List SchedEntry) (now startIdx : Nat) : Option Nat :=
  (List.range entries.length).findSome? fun i =>
    let idx := (startIdx + i) % entries.length
    if isReady (entries.getD idx ⟨0, none⟩) now then some idx else none

/-- The scheduler loop state: the per-DID rows and the scan start index. -/
structure SchedState where
  entries : List SchedEntry
  startIdx : Nat
  deriving Repr, DecidableEq

/-- One loop iteration at time `now`: poll the first due DID, stamp its
`lastRead := now` and restart the scan after it; otherwise just sleep.  The
optional result is the poll event: polled index, issue time, and the row as
it stood when the poll was issued. -/
def schedStep (s : SchedState) (now : Nat) : SchedState × Option (Nat × Nat × SchedEntry) :=
  match findReady s.entries now s.startIdx with
  | none => (s, none)
  | some idx =>
    (⟨s.entries.set idx { s.entries.getD idx ⟨0, none⟩ with lastRead := some now },
      (idx + 1) % s.entries.length⟩,
     some (idx, now, s.entries.getD idx ⟨0, none⟩))

/-- Run the loop over a list of iteration times, collecting poll events. -/
def schedRun (s : SchedState) : List Nat → SchedState × List (Nat × Nat × SchedEntry)
  | [] => (s, [])
  | t :: ts =>
    ((schedRun (schedStep s t).1 ts).1,
     (schedStep s t).2.toList ++ (schedRun (schedStep s t).1 ts).2)

/-! ## Stream window post-processing, from `models.Stream.PostProcess`
(the points/window variant of `models.Stream`)

`PostProcess` reads the stream's `points`, `windowSize`, `min` and `max`
and rebuilds `window`; the remaining `Stream` fields do not participate.
Timestamps are Go `int`, modelled as `Int`; values are rationals. -/

/-- One data point of a stream (`timestamp`, `value`). -/
structure DataPoint where
  timestamp : Int
  value : ℚ
  deriving Repr, DecidableEq

/-- The slice of `models.Stream` that `PostProcess` touches. -/
structure PPStream where
  windowSize : Int
  min : ℚ
  max : ℚ
  points : List DataPoint
  deriving Repr, DecidableEq

/-- The start-of-window scan: `for i, p := range points { if p.timestamp >=
leftMs { start = i; break }; start = i + 1 }` — the first index whose
timestamp is at least `leftMs`, or `len` when there is none. -/
def findStart (points : List DataPoint) (leftMs : Int) : Nat :=
  points.findIdx fun p => leftMs ≤ p.timestamp

/-- The end-of-window scan from `start`: Go leaves `end` at `len − 1` and
breaks with `end = i − 1` at the first `i ≥ start` whose timestamp exceeds
`currentTimeMs`; both cases equal `start + j − 1` over the integers, where
`j` is the first offending offset in `points[start:]` (or its length). -/
def findEndRaw (points : List DataPoint) (start : Nat) (currentTimeMs : Int) : Int :=
  (start : Int) + ((points.drop start).findIdx fun p => currentTimeMs < p.timestamp) - 1

/-- `start` after the one-point left margin (`if start > 0 { start-- }`). -/
def ppStart (points : List DataPoint) (leftMs : Int) : Nat :=
  if findStart points leftMs > 0 then findStart points leftMs - 1 else findStart points leftMs

/-- The exclusive end index: degenerate-window fix (`if end < start`), the
one-point right margin (`if end+1 < len`), then `end + 1` clamped to `len`. -/
def ppEndExclusive (points : List DataPoint) (start : Nat) (currentTimeMs : Int) : Nat :=
  let endRaw := findEndRaw points start currentTimeMs
  let end1 : Int := if endRaw < (start : Int) then (start : Int) else endRaw
  let end2 : Int := if end1 + 1 < (points.length : Int) then end1 + 1 else end1
  min (end2 + 1).toNat points.length

/-- The copied slice `points[start:endExclusive]`. -/
def ppWindow0 (points : List DataPoint) (currentTimeMs windowSize : Int) : List DataPoint :=
  (points.take (ppEndExclusive points (ppStart points (currentTimeMs - windowSize))
    currentTimeMs)).drop (ppStart points (currentTimeMs - windowSize))

/-- `models.Stream.PostProcess`: select the window slice with one-point
margins, shift timestamps so the window lies at the origin, append the
right-edge sentinel carrying the last value, and invert every value for the
SVG Y axis.  Returns the rebuilt `window`. -/
def postProcess (s : PPStream) (currentTimeMs : Int) : List DataPoint :=
  if s.points = [] then []
  else
    let window0 := ppWindow0 s.points currentTimeMs s.windowSize
    if window0 = [] then []
    else
      let shifted := window0.map fun p =>
        { p with timestamp := p.timestamp + s.windowSize - currentTimeMs }
      (shifted ++ ([⟨s.windowSize, (shifted.getLastD (⟨0, 0⟩ : DataPoint)).value⟩] :
        List DataPoint)).map
        fun p => { p with value := s.max + s.min - p.value }

/-- The timestamp shift `PostProcess` applies to the window slice (named
here so the window theorems can state it without inline lambdas). -/
def ppShift (w t : Int) (l : List DataPoint) : List DataPoint :=
  l.map fun p => { p with timestamp := p.timestamp + w - t }

/-- The Y-axis value inversion `PostProcess` applies to the final buffer
(named here so the window theorems can state it without inline lambdas). -/
def ppInvert (mx mn : ℚ) (l : List DataPoint) : List DataPoint :=
  l.map fun p => { p with value := mx + mn - p.value }

/-! ## Helper lemmas for the codec -/

theorem crc8UpdateBuf_append (init : Nat) (l1 l2 : List Nat) :
    crc8UpdateBuf init (l1 ++ l2) = crc8UpdateBuf (crc8UpdateBuf init l1) l2 := by
  simp [crc8UpdateBuf, List.foldl_append]

theorem crcSeq_eq (t0 t1 t2 t3 d0 d1 L : Nat) (data : List Nat) :
    crc8UpdateBuf (crc8Update (crc8Update (crc8Update
      (crc8UpdateBuf 0 [t0, t1, t2, t3]) d0) d1) L) data
    = crc8UpdateBuf 0 (t0 :: t1 :: t2 :: t3 :: d0 :: d1 :: L :: data) := by
  simp [crc8UpdateBuf]

theorem getD_append_self (l : List Nat) (c d : Nat) : (l ++ [c]).getD l.length d = c := by
  induction l with
  | nil => rfl
  | cons x xs ih => simpa only [List.cons_append, List.length_cons, List.getD_cons_succ] using ih

theorem resyncMagic_magic (rest : List Nat) :
    resyncMagic (0xAA :: 0x55 :: rest) = some rest := by
  simp [resyncMagic]

/-- Symbolic execution of `readBinaryFrame` on a well-framed byte stream:
magic, explicit 7-byte header whose length slot matches the payload length,
payload, one trailing byte.  The result only depends on whether that trailing
byte equals the recomputed CRC. -/
theorem readBinaryFrame_framed (t0 t1 t2 t3 d0 d1 : Nat) (data : List Nat) (c : Nat)
    (hL : data.length ≤ 64) :
    readBinaryFrame (0xAA :: 0x55 :: t0 :: t1 :: t2 :: t3 :: d0 :: d1 :: data.length ::
        (data ++ [c])) =
      if crc8UpdateBuf 0 (t0 :: t1 :: t2 :: t3 :: d0 :: d1 :: data.length :: data) = c then
        .ok (⟨t0 ||| (t1 <<< 8) ||| (t2 <<< 16) ||| (t3 <<< 24),
              (d0 <<< 8) ||| d1, data⟩, [])
      else .error .badCrc := by
  have hsync : resyncMagic (0xAA :: 0x55 :: t0 :: t1 :: t2 :: t3 :: d0 :: d1 ::
      data.length :: (data ++ [c])) = some (t0 :: t1 :: t2 :: t3 :: d0 :: d1 ::
      data.length :: (data ++ [c])) := resyncMagic_magic _
  rw [readBinaryFrame, hsync]
  simp only [Option.elim]
  have h7 : readFull 7 (t0 :: t1 :: t2 :: t3 :: d0 :: d1 :: data.length :: (data ++ [c]))
      = .ok ([t0, t1, t2, t3, d0, d1, data.length], data ++ [c]) := by
    simp [readFull]
  rw [decodeAfterMagic, h7]
  simp only [Except.bind]
  have hget6 : ([t0, t1, t2, t3, d0, d1, data.length] : List Nat).getD 6 0 = data.length := rfl
  rw [decodeAfterHeader, hget6]
  have hnot : ¬ data.length > 64 := by omega
  rw [if_neg hnot]
  have htail : readFull (data.length + 1) (data ++ [c]) = .ok (data ++ [c], []) := by
    have hlen : (data ++ [c]).length = data.length + 1 := by simp
    simp [readFull, hlen]
  rw [htail]
  simp only [Except.bind]
  rw [decodePayload]
  have htake : List.take data.length (data ++ [c]) = data := List.take_left data [c]
  have hcrcRx : (data ++ [c]).getD data.length 0 = c := getD_append_self data c 0
  rw [hget6, htake, hcrcRx]
  have hcrc : crc8UpdateBuf (crc8Update (crc8Update (crc8Update
      (crc8UpdateBuf 0 (([t0, t1, t2, t3, d0, d1, data.length] : List Nat).take 4))
      (([t0, t1, t2, t3, d0, d1, data.length] : List Nat).getD 4 0))
      (([t0, t1, t2, t3, d0, d1, data.length] : List Nat).getD 5 0))
      (data.length)) data
      = crc8UpdateBuf 0 (t0 :: t1 :: t2 :: t3 :: d0 :: d1 :: data.length :: data) := by
    simpa using crcSeq_eq t0 t1 t2 t3 d0 d1 data.length data
  rw [hcrc]
  by_cases hc : crc8UpdateBuf 0 (t0 :: t1 :: t2 :: t3 :: d0 :: d1 :: data.length :: data) = c
  · simp [hc]
  · simp [hc]

/-- The encoded frame, written with its header bytes and CRC explicit. -/
theorem writeFrameBytes_eq (ms did : Nat) (data : List Nat) (hlen : data.length ≤ 64) :
    writeFrameBytes ms did data =
      0xAA :: 0x55 :: (ms % 256) :: ((ms >>> 8) % 256) :: ((ms >>> 16) % 256) ::
        ((ms >>> 24) % 256) :: ((did >>> 8) % 256) :: (did % 256) :: data.length ::
        (data ++ [crc8UpdateBuf 0 ((ms % 256) :: ((ms >>> 8) % 256) :: ((ms >>> 16) % 256) ::
          ((ms >>> 24) % 256) :: ((did >>> 8) % 256) :: (did % 256) :: data.length :: data)]) := by
  have hlen256 : data.length % 256 = data.length := Nat.mod_eq_of_lt (by omega)
  rw [writeFrameBytes]
  simp only [hlen256]
  rw [← crcSeq_eq]
  rfl

/-- The encoded frame with the six timestamp/DID bytes grouped as `hdr6`. -/
theorem writeFrameBytes_eq_hdr (ms did : Nat) (data : List Nat) (hlen : data.length ≤ 64) :
    writeFrameBytes ms did data =
      0xAA :: 0x55 :: (hdr6 ms did ++ (data.length ::
        (data ++ [crc8UpdateBuf 0 (hdr6 ms did ++ data.length :: data)]))) := by
  rw [writeFrameBytes_eq ms did data hlen]
  simp [hdr6]

/-- `readBinaryFrame_framed` with the six header bytes abstracted as a list
of length 6. -/
theorem readBinaryFrame_framed_hdr (h6 : List Nat) (data : List Nat) (c : Nat)
    (hlen6 : h6.length = 6) (hL : data.length ≤ 64) :
    readBinaryFrame (0xAA :: 0x55 :: (h6 ++ (data.length :: (data ++ [c])))) =
      if crc8UpdateBuf 0 (h6 ++ data.length :: data) = c then
        .ok (⟨h6.getD 0 0 ||| (h6.getD 1 0 <<< 8) ||| (h6.getD 2 0 <<< 16) |||
              (h6.getD 3 0 <<< 24), (h6.getD 4 0 <<< 8) ||| h6.getD 5 0, data⟩, [])
      else .error .badCrc := by
  rcases h6 with _ | ⟨t0, h5⟩
  · simp at hlen6
  rcases h5 with _ | ⟨t1, h4⟩
  · simp at hlen6
  rcases h4 with _ | ⟨t2, h3⟩
  · simp at hlen6
  rcases h3 with _ | ⟨t3, h2⟩
  · simp at hlen6
  rcases h2 with _ | ⟨d0, h1⟩
  · simp at hlen6
  rcases h1 with _ | ⟨d1, h0⟩
  · simp at hlen6
  rcases h0 with _ | ⟨x, rest⟩
  · simpa using readBinaryFrame_framed t0 t1 t2 t3 d0 d1 data c hL
  · simp at hlen6

theorem lor_eq_add (a b k : Nat) (hb : b < 2 ^ k) : (a <<< k) ||| b = a * 2 ^ k + b := by
  rw [Nat.shiftLeft_eq, Nat.mul_comm a (2 ^ k)]
  exact (Nat.mul_add_lt_is_or hb a).symm

theorem or_shiftLeft_eq_add (x b k : Nat) (hx : x < 2 ^ k) :
    x ||| (b <<< k) = b * 2 ^ k + x := by
  rw [Nat.or_comm]
  exact lor_eq_add b x k hx

theorem u32_recompose (m : Nat) (h : m < 4294967296) :
    (m % 256) ||| (((m >>> 8) % 256) <<< 8) ||| (((m >>> 16) % 256) <<< 16) |||
      (((m >>> 24) % 256) <<< 24) = m := by
  have e8 : (2 : Nat) ^ 8 = 256 := by norm_num
  have e16 : (2 : Nat) ^ 16 = 65536 := by norm_num
  have e24 : (2 : Nat) ^ 24 = 16777216 := by norm_num
  simp only [Nat.shiftRight_eq_div_pow]
  rw [or_shiftLeft_eq_add _ _ 8 (by rw [e8]; omega)]
  rw [or_shiftLeft_eq_add _ _ 16 (by rw [e16, e8]; omega)]
  rw [or_shiftLeft_eq_add _ _ 24 (by rw [e24, e16, e8]; omega)]
  rw [e8, e16, e24]
  simp only [e8, e16, e24] at *
  omega

theorem u16_recompose (d : Nat) (h : d < 65536) :
    (((d >>> 8) % 256) <<< 8) ||| (d % 256) = d := by
  have e8 : (2 : Nat) ^ 8 = 256 := by norm_num
  rw [lor_eq_add _ _ 8 (by rw [e8]; omega)]
  simp only [Nat.shiftRight_eq_div_pow, e8]
  omega

/-- Shared round-trip engine: decoding an encoded frame succeeds and returns
the original fields. -/
theorem readBinaryFrame_writeFrame (ms did : Nat) (data : List Nat)
    (hms : ms < 2 ^ 32) (hdid : did < 2 ^ 16) (hlen : data.length ≤ 64) :
    readBinaryFrame (writeFrameBytes ms did data) = .ok (⟨ms, did, data⟩, []) := by
  rw [writeFrameBytes_eq ms did data hlen]
  rw [readBinaryFrame_framed _ _ _ _ _ _ _ _ hlen]
  rw [if_pos rfl]
  have hm : (ms % 256) ||| (((ms >>> 8) % 256) <<< 8) ||| (((ms >>> 16) % 256) <<< 16) |||
      (((ms >>> 24) % 256) <<< 24) = ms := u32_recompose ms (by omega)
  have hd : (((did >>> 8) % 256) <<< 8) ||| (did % 256) = did := u16_recompose did (by omega)
  rw [hm, hd]

/-! ## Claim C1 -/

/-- Claim C1: for every frame with payload length in [0,64], encoding it with
the logger's `writeFrame` layout (magic AA 55, u32 LE timestamp, u16 BE DID,
length byte, payload, CRC-8-CCITT poly 0x07 init 0x00 over
timestamp+DID+len+payload) and decoding the bytes with `readBinaryFrame`
returns the same DID, payload and timestamp with no error, consuming the
whole stream. -/
theorem decode_encode_roundtrip (ms did : Nat) (data : List Nat)
    (hms : ms < 2 ^ 32) (hdid : did < 2 ^ 16)
    (_hbytes : ∀ x ∈ data, x < 256) (hlen : data.length ≤ 64) :
    readBinaryFrame (writeFrameBytes ms did data) = .ok (⟨ms, did, data⟩, []) :=
  readBinaryFrame_writeFrame ms did data hms hdid hlen

/-- Concrete instance of C1 (RPM frame from scenario S1): all hypotheses hold
and the round-trip preserves the frame. -/
theorem decode_encode_roundtrip_witness :
    (1000 < 2 ^ 32) ∧ (256 < 2 ^ 16) ∧ (∀ x ∈ [15, 160], x < 256) ∧
      ([15, 160] : List Nat).length ≤ 64 ∧
      readBinaryFrame (writeFrameBytes 1000 256 [15, 160]) = .ok (⟨1000, 256, [15, 160]⟩, []) :=
  ⟨by norm_num, by norm_num, by decide, by decide,
    decode_encode_roundtrip 1000 256 [15, 160] (by norm_num) (by norm_num)
      (by decide) (by decide)⟩

/-! ## Claim C2: resynchronisation over a junk prefix -/

theorem containsMagicPair_tail {a : Nat} {l : List Nat}
    (h : containsMagicPair (a :: l) = false) : containsMagicPair l = false := by
  match l with
  | [] => rfl
  | b :: rest =>
    rw [containsMagicPair] at h
    simp only [Bool.or_eq_false_iff] at h
    exact h.2

theorem getLast?_tail_ne {x a : Nat} {l : List Nat}
    (h : (x :: l).getLast? ≠ some a) : l.getLast? ≠ some a := by
  cases l with
  | nil => simp
  | cons y ys => rw [List.getLast?_cons_cons] at h; exact h

theorem resyncMagic_cons_ne {a : Nat} (ha : a ≠ 0xAA) (l : List Nat) :
    resyncMagic (a :: l) = resyncMagic l := by
  rw [resyncMagic.eq_def]
  simp [ha]

theorem resyncMagic_aa_cons_ne {b : Nat} (hb : b ≠ 0x55) (l : List Nat) :
    resyncMagic (0xAA :: b :: l) = resyncMagic l := by
  rw [resyncMagic.eq_def]
  simp [hb]

/-- The resync loop consumes a junk leader that contains no magic pair and
does not end in 0xAA, then locks onto the genuine magic. -/
theorem resyncMagic_skip (n : Nat) : ∀ (P : List Nat), P.length ≤ n →
    containsMagicPair P = false → P.getLast? ≠ some 0xAA → ∀ rest,
    resyncMagic (P ++ (0xAA :: 0x55 :: rest)) = some rest := by
  induction n with
  | zero =>
    intro P hP _ _ rest
    have hPnil : P = [] := by cases P <;> simp_all
    subst hPnil
    exact resyncMagic_magic rest
  | succ n ih =>
    intro P hP hnm hlast rest
    match P with
    | [] => exact resyncMagic_magic rest
    | a :: P' =>
      by_cases ha : a = 0xAA
      · subst ha
        match P' with
        | [] =>
          exact absurd (show ([0xAA] : List Nat).getLast? = some 0xAA from rfl) hlast
        | b :: P'' =>
          have hb : b ≠ 0x55 := by
            intro hb
            subst hb
            rw [containsMagicPair] at hnm
            simp at hnm
          rw [List.cons_append, List.cons_append, resyncMagic_aa_cons_ne hb]
          exact ih P'' (by simp at hP; omega)
            (containsMagicPair_tail (containsMagicPair_tail hnm))
            (getLast?_tail_ne (getLast?_tail_ne hlast)) rest
      · rw [List.cons_append, resyncMagic_cons_ne ha]
        exact ih P' (by simp at hP; omega) (containsMagicPair_tail hnm)
          (getLast?_tail_ne hlast) rest

/-- Claim C2 (amended): for every frame with payload length in [0,64] and
every byte prefix that contains no 0xAA 0x55 pair *and does not end in
0xAA*, decoding the prefix followed by the encoded frame discards the
prefix, resynchronises on the magic and returns the frame.  (The extra
last-byte condition is forced: the resync loop consumes the byte after any
0xAA it sees, so a prefix ending in 0xAA swallows the genuine magic — see
the counterexample.) -/
theorem resync_decode_with_junk (P : List Nat) (ms did : Nat) (data : List Nat)
    (hnm : containsMagicPair P = false) (hlast : P.getLast? ≠ some 0xAA)
    (hms : ms < 2 ^ 32) (hdid : did < 2 ^ 16) (hlen : data.length ≤ 64) :
    readBinaryFrame (P ++ writeFrameBytes ms did data) = .ok (⟨ms, did, data⟩, []) := by
  obtain ⟨body, hbody⟩ : ∃ body, writeFrameBytes ms did data = 0xAA :: 0x55 :: body :=
    ⟨_, rfl⟩
  have hok := readBinaryFrame_writeFrame ms did data hms hdid hlen
  rw [hbody, readBinaryFrame, resyncMagic_magic] at hok
  rw [hbody, readBinaryFrame, resyncMagic_skip P.length P le_rfl hnm hlast body]
  exact hok

/-- Witness for the amended C2: a concrete junk prefix before a concrete
frame is discarded and the frame decodes intact. -/
theorem resync_decode_with_junk_witness :
    containsMagicPair [1, 0xAA, 2, 0x55] = false ∧
      ([1, 0xAA, 2, 0x55] : List Nat).getLast? ≠ some 0xAA ∧
      readBinaryFrame ([1, 0xAA, 2, 0x55] ++ writeFrameBytes 7 9 [1, 2]) =
        .ok (⟨7, 9, [1, 2]⟩, []) :=
  ⟨by decide, by decide,
    resync_decode_with_junk [1, 0xAA, 2, 0x55] 7 9 [1, 2] (by decide) (by decide)
      (by norm_num) (by norm_num) (by decide)⟩

set_option maxRecDepth 8192 in
/-- Counterexample to C2 as stated: the prefix `[0xAA]` contains no
0xAA 0x55 pair, yet prepending it to an encoded frame makes the decoder
consume the frame's own magic and fail with end-of-stream instead of
returning the frame. -/
theorem resync_claim_counterexample :
    containsMagicPair [0xAA] = false ∧
      readBinaryFrame ([0xAA] ++ writeFrameBytes 0 0 []) = .error .eof ∧
      readBinaryFrame ([0xAA] ++ writeFrameBytes 0 0 []) ≠
        .ok (⟨0, 0, []⟩, []) := by
  have h : readBinaryFrame ([0xAA] ++ writeFrameBytes 0 0 []) = .error .eof := rfl
  refine ⟨by decide, h, ?_⟩
  rw [h]
  intro hcontra
  exact Except.noConfusion hcontra

/-! ## Claim C3: single-bit corruption is caught by the CRC -/

set_option maxRecDepth 40000 in
theorem crc8Round_bound : ∀ c < 256, crc8Round c < 256 := by decide

set_option maxRecDepth 40000 in
theorem crc8RoundInv_round : ∀ c < 256, crc8RoundInv (crc8Round c) = c := by decide

theorem crc8Round_injOn {c1 c2 : Nat} (h1 : c1 < 256) (h2 : c2 < 256)
    (h : crc8Round c1 = crc8Round c2) : c1 = c2 := by
  have e1 := crc8RoundInv_round c1 h1
  have e2 := crc8RoundInv_round c2 h2
  rw [← e1, ← e2, h]

theorem crc8Round_iter_bound (n : Nat) : ∀ c < 256, crc8Round^[n] c < 256 := by
  induction n with
  | zero => intro c hc; simpa using hc
  | succ n ih =>
    intro c hc
    rw [Function.iterate_succ_apply]
    exact ih _ (crc8Round_bound c hc)

theorem crc8Round_iter_injOn (n : Nat) : ∀ c1 < 256, ∀ c2 < 256,
    crc8Round^[n] c1 = crc8Round^[n] c2 → c1 = c2 := by
  induction n with
  | zero => intro c1 _ c2 _ h; simpa using h
  | succ n ih =>
    intro c1 h1 c2 h2 h
    rw [Function.iterate_succ_apply, Function.iterate_succ_apply] at h
    exact crc8Round_injOn h1 h2
      (ih _ (crc8Round_bound c1 h1) _ (crc8Round_bound c2 h2) h)

theorem crc8Update_bound (c b : Nat) : crc8Update c b < 256 :=
  crc8Round_iter_bound 8 _ (Nat.mod_lt _ (by norm_num))

theorem xor_lt_256 {a b : Nat} (ha : a < 256) (hb : b < 256) : a ^^^ b < 256 := by
  have h := Nat.xor_lt_two_pow (n := 8) (by simpa using ha) (by simpa using hb)
  simpa using h

theorem crc8Update_injOn_left {c1 c2 b : Nat} (h1 : c1 < 256) (h2 : c2 < 256) (hb : b < 256)
    (h : crc8Update c1 b = crc8Update c2 b) : c1 = c2 := by
  rw [crc8Update, crc8Update, Nat.mod_eq_of_lt (xor_lt_256 h1 hb),
    Nat.mod_eq_of_lt (xor_lt_256 h2 hb)] at h
  have h2' := crc8Round_iter_injOn 8 _ (xor_lt_256 h1 hb) _ (xor_lt_256 h2 hb) h
  have e1 : (c1 ^^^ b) ^^^ b = c1 := by rw [Nat.xor_assoc, Nat.xor_self, Nat.xor_zero]
  have e2 : (c2 ^^^ b) ^^^ b = c2 := by rw [Nat.xor_assoc, Nat.xor_self, Nat.xor_zero]
  rw [← e1, ← e2, h2']

theorem crc8Update_injOn_right {c x y : Nat} (hc : c < 256) (hx : x < 256) (hy : y < 256)
    (h : crc8Update c x = crc8Update c y) : x = y := by
  rw [crc8Update, crc8Update, Nat.mod_eq_of_lt (xor_lt_256 hc hx),
    Nat.mod_eq_of_lt (xor_lt_256 hc hy)] at h
  have h2 := crc8Round_iter_injOn 8 _ (xor_lt_256 hc hx) _ (xor_lt_256 hc hy) h
  have e1 : c ^^^ (c ^^^ x) = x := by rw [← Nat.xor_assoc, Nat.xor_self, Nat.zero_xor]
  have e2 : c ^^^ (c ^^^ y) = y := by rw [← Nat.xor_assoc, Nat.xor_self, Nat.zero_xor]
  rw [← e1, ← e2, h2]

theorem crc8UpdateBuf_cons (init x : Nat) (xs : List Nat) :
    crc8UpdateBuf init (x :: xs) = crc8UpdateBuf (crc8Update init x) xs := rfl

theorem crc8UpdateBuf_bound (l : List Nat) : ∀ init < 256, crc8UpdateBuf init l < 256 := by
  induction l with
  | nil => intro init h; simpa [crc8UpdateBuf] using h
  | cons x xs ih =>
    intro init _
    rw [crc8UpdateBuf_cons]
    exact ih _ (crc8Update_bound init x)

theorem crc8UpdateBuf_injOn (l : List Nat) (hl : ∀ v ∈ l, v < 256) :
    ∀ i1 < 256, ∀ i2 < 256, crc8UpdateBuf i1 l = crc8UpdateBuf i2 l → i1 = i2 := by
  induction l with
  | nil => intro i1 _ i2 _ h; simpa [crc8UpdateBuf] using h
  | cons x xs ih =>
    intro i1 h1 i2 h2 h
    rw [crc8UpdateBuf_cons, crc8UpdateBuf_cons] at h
    have hx : x < 256 := hl x (by simp)
    have htail := ih (fun v hv => hl v (by simp [hv])) _ (crc8Update_bound i1 x)
      _ (crc8Update_bound i2 x) h
    exact crc8Update_injOn_left h1 h2 hx htail

/-- Two byte buffers that agree except in one byte have different CRCs:
the update step is injective in both arguments, so the states diverge at the
differing byte and never reconverge. -/
theorem crc8_single_flip_ne (pre suf : List Nat) (x y : Nat)
    (hx : x < 256) (hy : y < 256)
    (hsuf : ∀ v ∈ suf, v < 256) (hxy : x ≠ y) :
    crc8UpdateBuf 0 (pre ++ x :: suf) ≠ crc8UpdateBuf 0 (pre ++ y :: suf) := by
  intro h
  rw [crc8UpdateBuf_append, crc8UpdateBuf_append, crc8UpdateBuf_cons, crc8UpdateBuf_cons] at h
  have hs : crc8UpdateBuf 0 pre < 256 := crc8UpdateBuf_bound pre 0 (by norm_num)
  have h2 := crc8UpdateBuf_injOn suf hsuf _ (crc8Update_bound _ x) _ (crc8Update_bound _ y) h
  exact hxy (crc8Update_injOn_right hs hx hy h2)

theorem one_shiftLeft_lt_256 {b : Nat} (hb : b < 8) : 1 <<< b < 256 := by
  rw [Nat.one_shiftLeft]
  calc 2 ^ b < 2 ^ 8 := Nat.pow_lt_pow_right (by norm_num) hb
  _ = 256 := by norm_num

theorem one_shiftLeft_ne_zero (b : Nat) : 1 <<< b ≠ 0 := by
  rw [Nat.one_shiftLeft]
  exact (Nat.two_pow_pos b).ne'

theorem xor_flip_ne {x m : Nat} (hm : m ≠ 0) : x ^^^ m ≠ x := by
  intro h
  apply hm
  calc m = x ^^^ (x ^^^ m) := by rw [← Nat.xor_assoc, Nat.xor_self, Nat.zero_xor]
  _ = x ^^^ x := by rw [h]
  _ = 0 := Nat.xor_self x

theorem flipBitAt_cons_succ (x : Nat) (l : List Nat) (i b : Nat) :
    flipBitAt (x :: l) (i + 1) b = x :: flipBitAt l i b := rfl

theorem flipBitAt_append_skip (l1 l2 : List Nat) (i b : Nat) :
    flipBitAt (l1 ++ l2) (l1.length + i) b = l1 ++ flipBitAt l2 i b := by
  induction l1 with
  | nil => simp
  | cons x xs ih =>
    have harg : (x :: xs).length + i = (xs.length + i) + 1 := by
      simp [List.length_cons]
      omega
    rw [List.cons_append, harg, flipBitAt_cons_succ, ih, List.cons_append]

theorem flipBitAt_append_left (l1 l2 : List Nat) (i b : Nat) (h : i < l1.length) :
    flipBitAt (l1 ++ l2) i b = flipBitAt l1 i b ++ l2 := by
  induction l1 generalizing i with
  | nil => simp at h
  | cons x xs ih =>
    cases i with
    | zero => rfl
    | succ j =>
      rw [List.cons_append, flipBitAt_cons_succ, flipBitAt_cons_succ,
        ih j (by simp at h; omega), List.cons_append]

theorem list_decomp_at (l : List Nat) (j : Nat) (h : j < l.length) :
    l = l.take j ++ l.getD j 0 :: l.drop (j + 1) := by
  induction l generalizing j with
  | nil => simp at h
  | cons x xs ih =>
    cases j with
    | zero => simp
    | succ j =>
      have h' : j < xs.length := by simp at h; omega
      have e := ih j h'
      simp only [List.take_succ_cons, List.getD_cons_succ, List.drop_succ_cons,
        List.cons_append]
      exact congrArg (x :: ·) e

theorem flipBitAt_take_drop (l : List Nat) (j b : Nat) (h : j < l.length) :
    flipBitAt l j b = l.take j ++ (l.getD j 0 ^^^ (1 <<< b)) :: l.drop (j + 1) := by
  induction l generalizing j with
  | nil => simp at h
  | cons x xs ih =>
    cases j with
    | zero => rfl
    | succ j =>
      have h' : j < xs.length := by simp at h; omega
      rw [flipBitAt_cons_succ, ih j h']
      simp [List.take_succ_cons, List.getD_cons_succ, List.drop_succ_cons]

theorem getD_mem_of_lt {l : List Nat} {j : Nat} (h : j < l.length) : l.getD j 0 ∈ l := by
  rw [List.getD_eq_getElem _ _ h]
  exact List.getElem_mem h

theorem decode_badCrc_of_crc_ne (h6 : List Nat) (data : List Nat) (c : Nat)
    (hlen6 : h6.length = 6) (hL : data.length ≤ 64)
    (hne : crc8UpdateBuf 0 (h6 ++ data.length :: data) ≠ c) :
    readBinaryFrame (0xAA :: 0x55 :: (h6 ++ (data.length :: (data ++ [c])))) =
      .error .badCrc := by
  rw [readBinaryFrame_framed_hdr h6 data c hlen6 hL, if_neg hne]

theorem hdr6_length (ms did : Nat) : (hdr6 ms did).length = 6 := rfl

theorem hdr6_bytes_lt (ms did : Nat) : ∀ v ∈ hdr6 ms did, v < 256 := by
  intro v hv
  simp [hdr6] at hv
  rcases hv with rfl | rfl | rfl | rfl | rfl | rfl <;> exact Nat.mod_lt _ (by norm_num)

theorem hdr6_getD_lt (ms did i : Nat) (h : i < 6) : (hdr6 ms did).getD i 0 < 256 := by
  interval_cases i <;> exact Nat.mod_lt _ (by norm_num)

/-- Claim C3 (amended): flipping any single bit of a timestamp, DID or
payload byte of an encoded frame makes `readBinaryFrame` fail with the
BadCrc error.  Flips of the length byte (content index 6) are excluded:
they change how many bytes the decoder consumes and surface as BadLen (or a
short read) instead — see the counterexample. -/
theorem crc_flip_badCrc (ms did : Nat) (data : List Nat)
    (_hms : ms < 2 ^ 32) (_hdid : did < 2 ^ 16)
    (hbytes : ∀ x ∈ data, x < 256) (hlen : data.length ≤ 64)
    (i b : Nat) (hb : b < 8) (hi : i < 7 + data.length) (hne6 : i ≠ 6) :
    readBinaryFrame (flipBitAt (writeFrameBytes ms did data) (2 + i) b) =
      .error .badCrc := by
  have hm : (1 <<< b) < 256 := one_shiftLeft_lt_256 hb
  have hm0 : (1 <<< b) ≠ 0 := one_shiftLeft_ne_zero b
  rw [writeFrameBytes_eq_hdr ms did data hlen]
  have hpeel : ∀ (z : List Nat), flipBitAt (0xAA :: 0x55 :: z) (2 + i) b =
      0xAA :: 0x55 :: flipBitAt z i b := by
    intro z
    have h2i : 2 + i = (i + 1) + 1 := by omega
    rw [h2i, flipBitAt_cons_succ, flipBitAt_cons_succ]
  rw [hpeel]
  rcases Nat.lt_or_ge i 6 with hcase | hcase
  · -- flip inside the six timestamp/DID bytes
    rw [flipBitAt_append_left _ _ _ _ (by rw [hdr6_length]; omega)]
    rw [flipBitAt_take_drop _ _ _ (by rw [hdr6_length]; omega)]
    have hlen6 : ((hdr6 ms did).take i ++
        ((hdr6 ms did).getD i 0 ^^^ (1 <<< b)) :: (hdr6 ms did).drop (i + 1)).length = 6 := by
      simp [List.length_take, List.length_drop, hdr6_length]
      omega
    rw [decode_badCrc_of_crc_ne _ data _ hlen6 hlen ?_]
    have hne' := crc8_single_flip_ne ((hdr6 ms did).take i)
      ((hdr6 ms did).drop (i + 1) ++ data.length :: data)
      ((hdr6 ms did).getD i 0 ^^^ (1 <<< b)) ((hdr6 ms did).getD i 0)
      (xor_lt_256 (hdr6_getD_lt ms did i hcase) hm)
      (hdr6_getD_lt ms did i hcase)
      (by
        intro v hv
        rw [List.mem_append] at hv
        rcases hv with hv | hv
        · exact hdr6_bytes_lt ms did v (List.drop_subset _ _ hv)
        · rw [List.mem_cons] at hv
          rcases hv with rfl | hv
          · omega
          · exact hbytes v hv)
      (xor_flip_ne hm0)
    rw [List.append_assoc, List.cons_append]
    have hC : hdr6 ms did ++ data.length :: data =
        (hdr6 ms did).take i ++ (hdr6 ms did).getD i 0 ::
          ((hdr6 ms did).drop (i + 1) ++ data.length :: data) := by
      conv_lhs => rw [list_decomp_at (hdr6 ms did) i (by rw [hdr6_length]; omega)]
      rw [List.append_assoc, List.cons_append]
    rw [hC]
    exact hne'
  · -- flip inside the payload
    obtain ⟨j, rfl⟩ : ∃ j, i = 7 + j := ⟨i - 7, by omega⟩
    have hj : j < data.length := by omega
    have hskip : (7 : Nat) + j = (hdr6 ms did).length + (1 + j) := by
      rw [hdr6_length]; omega
    rw [hskip, flipBitAt_append_skip]
    have h1j : (1 : Nat) + j = j + 1 := by omega
    rw [h1j, flipBitAt_cons_succ]
    rw [flipBitAt_append_left _ _ _ _ hj, flipBitAt_take_drop _ _ _ hj]
    have hlen' : (data.take j ++ (data.getD j 0 ^^^ (1 <<< b)) :: data.drop (j + 1)).length
        = data.length := by
      simp [List.length_take, List.length_drop]
      omega
    have happ := readBinaryFrame_framed_hdr (hdr6 ms did)
      (data.take j ++ (data.getD j 0 ^^^ (1 <<< b)) :: data.drop (j + 1))
      (crc8UpdateBuf 0 (hdr6 ms did ++ data.length :: data))
      (hdr6_length ms did) (by omega)
    rw [hlen'] at happ
    rw [happ]
    rw [if_neg ?_]
    have hne' := crc8_single_flip_ne (hdr6 ms did ++ data.length :: data.take j)
      (data.drop (j + 1)) (data.getD j 0 ^^^ (1 <<< b)) (data.getD j 0)
      (xor_lt_256 (hbytes _ (getD_mem_of_lt hj)) hm)
      (hbytes _ (getD_mem_of_lt hj))
      (fun v hv => hbytes v (List.drop_subset _ _ hv))
      (xor_flip_ne hm0)
    have hL : hdr6 ms did ++ data.length ::
          (data.take j ++ (data.getD j 0 ^^^ (1 <<< b)) :: data.drop (j + 1)) =
        (hdr6 ms did ++ data.length :: data.take j) ++
          (data.getD j 0 ^^^ (1 <<< b)) :: data.drop (j + 1) := by
      rw [List.append_assoc, List.cons_append]
    have hR : hdr6 ms did ++ data.length :: data =
        (hdr6 ms did ++ data.length :: data.take j) ++
          data.getD j 0 :: data.drop (j + 1) := by
      rw [List.append_assoc, List.cons_append, ← list_decomp_at data j hj]
    rw [hL, hR]
    exact hne'

/-- Witness for the amended C3: flipping bit 0 of the first payload byte of
a concrete frame yields BadCrc. -/
theorem crc_flip_badCrc_witness :
    (3 < 2 ^ 32) ∧ (256 < 2 ^ 16) ∧ (∀ x ∈ [15, 160], x < 256) ∧
      ([15, 160] : List Nat).length ≤ 64 ∧ (0 < 8) ∧ (7 < 7 + ([15, 160] : List Nat).length) ∧
      (7 ≠ 6) ∧
      readBinaryFrame (flipBitAt (writeFrameBytes 3 256 [15, 160]) (2 + 7) 0) =
        .error .badCrc :=
  ⟨by norm_num, by norm_num, by decide, by decide, by norm_num, by decide, by decide,
    crc_flip_badCrc 3 256 [15, 160] (by norm_num) (by norm_num) (by decide) (by decide)
      7 0 (by norm_num) (by decide) (by decide)⟩

set_option maxRecDepth 8192 in
/-- Counterexample to C3 as stated: the claim includes flips of the length
byte, but flipping bit 7 of the length byte of an encoded frame yields the
BadLen error, not BadCrc (the corrupted length 128 exceeds the cap of 64). -/
theorem crc_flip_len_counterexample :
    readBinaryFrame (flipBitAt (writeFrameBytes 0 0 []) 8 7) = .error .badLen ∧
      readBinaryFrame (flipBitAt (writeFrameBytes 0 0 []) 8 7) ≠ .error .badCrc := by
  have h : readBinaryFrame (flipBitAt (writeFrameBytes 0 0 []) 8 7) = .error .badLen := rfl
  refine ⟨h, ?_⟩
  rw [h]
  intro hc
  injection hc with hba
  exact DecodeError.noConfusion hba

/-! ## Claims C4 and C5: the seed/key oracle -/

theorem k701KeySplit_eq (magicNumber seedHi seedLo : Nat)
    (hHi : seedHi < 256) (hLo : seedLo < 256) :
    k701KeySplit magicNumber seedHi seedLo =
      ((magicNumber * (seedHi * 256 + seedLo)) % 65536 / 256,
       (magicNumber * (seedHi * 256 + seedLo)) % 65536 % 256) := by
  have hx : ((seedHi <<< 8) % 65536) ||| seedLo = seedHi * 256 + seedLo := by
    have hsh : seedHi <<< 8 = seedHi * 256 := by rw [Nat.shiftLeft_eq]
    have hmod : (seedHi <<< 8) % 65536 = seedHi <<< 8 :=
      Nat.mod_eq_of_lt (by rw [hsh]; omega)
    rw [hmod, lor_eq_add seedHi seedLo 8 (by simpa using hLo)]
    norm_num
  have hand16 : ∀ y : Nat, y &&& 0xFFFF = y % 65536 := by
    intro y
    have h : (0xFFFF : Nat) = 2 ^ 16 - 1 := by norm_num
    rw [h, Nat.and_pow_two_sub_one_eq_mod]
  have hand8 : ∀ y : Nat, y &&& 0xFF = y % 256 := by
    intro y
    have h : (0xFF : Nat) = 2 ^ 8 - 1 := by norm_num
    rw [h, Nat.and_pow_two_sub_one_eq_mod]
  have hshr : ∀ y : Nat, y >>> 8 = y / 256 := by
    intro y
    rw [Nat.shiftRight_eq_div_pow]
  simp only [k701KeySplit, hx, hand16, hand8, hshr, Prod.mk.injEq]
  constructor <;> omega

/-- Claim C4: for every seed byte pair, the key generator computes
`(magic * ((seedHi<<8)|seedLo)) mod 2^16` split big-endian, with
magic 0x4D4E for level 2 and 0x6F31 for level 3, and returns an error at
level 1. -/
theorem generateK701Key_spec (seedHi seedLo : Nat)
    (hHi : seedHi < 256) (hLo : seedLo < 256) :
    generateK701Key 2 seedHi seedLo =
      .ok ((0x4D4E * (seedHi * 256 + seedLo)) % 65536 / 256,
           (0x4D4E * (seedHi * 256 + seedLo)) % 65536 % 256) ∧
    generateK701Key 3 seedHi seedLo =
      .ok ((0x6F31 * (seedHi * 256 + seedLo)) % 65536 / 256,
           (0x6F31 * (seedHi * 256 + seedLo)) % 65536 % 256) ∧
    ∃ e, generateK701Key 1 seedHi seedLo = .error e := by
  refine ⟨?_, ?_, ⟨"missing magic number for Level 1", ?_⟩⟩
  · rw [generateK701Key, if_neg (by decide), if_pos rfl]
    exact congrArg Except.ok (k701KeySplit_eq 0x4D4E seedHi seedLo hHi hLo)
  · rw [generateK701Key, if_neg (by decide), if_neg (by decide), if_pos rfl]
    exact congrArg Except.ok (k701KeySplit_eq 0x6F31 seedHi seedLo hHi hLo)
  · rfl

/-- Witness for C4 at the spec's concrete seeds. -/
theorem generateK701Key_spec_witness :
    (0xAB < 256) ∧ (0xCD < 256) ∧
      (generateK701Key 2 0xAB 0xCD =
        .ok ((0x4D4E * (0xAB * 256 + 0xCD)) % 65536 / 256,
             (0x4D4E * (0xAB * 256 + 0xCD)) % 65536 % 256) ∧
      generateK701Key 3 0xAB 0xCD =
        .ok ((0x6F31 * (0xAB * 256 + 0xCD)) % 65536 / 256,
             (0x6F31 * (0xAB * 256 + 0xCD)) % 65536 % 256) ∧
      ∃ e, generateK701Key 1 0xAB 0xCD = .error e) :=
  ⟨by norm_num, by norm_num, generateK701Key_spec 0xAB 0xCD (by norm_num) (by norm_num)⟩

/-- Counterexample to C5 as stated: at level 3 with seed bytes (0x12, 0x34)
the key generator returns (0x07, 0xF4) — the low 16 bits of
0x6F31 * 0x1234 are 0x07F4 — not the (0xB7, 0xE4) the claim asserts. -/
theorem k701Key_claim_counterexample :
    generateK701Key 3 0x12 0x34 = .ok (0x07, 0xF4) ∧
      ((0x07 : Nat), (0xF4 : Nat)) ≠ ((0xB7 : Nat), (0xE4 : Nat)) :=
  ⟨rfl, by decide⟩

/-- Claim C5 (amended): the key generator applied to level 3 and seed bytes
(0x12, 0x34) returns the key bytes (0x07, 0xF4), since
(0x6F31 * 0x1234) mod 2^16 = 0x07F4; applied to level 2 and seed bytes
(0x00, 0x01) it returns (0x4D, 0x4E). -/
theorem k701Key_values :
    generateK701Key 3 0x12 0x34 = .ok (0x07, 0xF4) ∧
      generateK701Key 2 0x00 0x01 = .ok (0x4D, 0x4E) :=
  ⟨rfl, rfl⟩

/-! ## Claim C6: unknown DIDs and short payloads decode to zero samples -/

theorem parseDIDBytes_unknown (pow : ℚ → ℚ → ℚ) (did : Nat) (bytes : List Nat)
    (h : did ∉ knownDIDsK701) : parseDIDBytes pow did bytes = [] := by
  simp only [knownDIDsK701, List.mem_cons, List.not_mem_nil, or_false, not_or] at h
  obtain ⟨h1, h2, h3, h4, h5, h6, h7, h8, h9, h10, h11, h12, h13, h14, h15, h16, h17,
    h18, h19, h20, h21, h22, h23⟩ := h
  rw [parseDIDBytes, if_neg h1, if_neg h2, if_neg h3, if_neg h4, if_neg h5, if_neg h6,
    if_neg h7, if_neg h8, if_neg h9, if_neg h10, if_neg h11, if_neg h12, if_neg h13,
    if_neg h14, if_neg h15, if_neg h16, if_neg h17, if_neg h18, if_neg h19, if_neg h20,
    if_neg h21, if_neg h22, if_neg h23]

/-- Claim C6 (amended): a DID with no entry in the decode table decodes to
zero samples, and every table entry other than Coolant decodes a payload
shorter than its minimum length to zero samples.  Coolant is excluded: its
branch returns one sample (the bare −40 offset) even for an empty payload
— see the counterexample. -/
theorem parseDIDBytes_zero_samples (pow : ℚ → ℚ → ℚ) (did : Nat) (bytes : List Nat) :
    (did ∉ knownDIDsK701 → parseDIDBytes pow did bytes = []) ∧
    (did ∈ knownDIDsK701 → did ≠ CoolantDidK701 → bytes.length < minLenK701 did →
      parseDIDBytes pow did bytes = []) := by
  constructor
  · exact parseDIDBytes_unknown pow did bytes
  · intro hmem hne hlen
    simp only [knownDIDsK701, List.mem_cons, List.not_mem_nil, or_false] at hmem
    rcases hmem with rfl | rfl | rfl | rfl | rfl | rfl | rfl | rfl | rfl | rfl | rfl | rfl |
      rfl | rfl | rfl | rfl | rfl | rfl | rfl | rfl | rfl | rfl | rfl
    all_goals first
      | (exact absurd rfl hne)
      | (rcases bytes with _ | ⟨x, rest⟩
         · rfl
         · exact absurd (show (x :: rest).length < 1 from hlen) (by simp))
      | (rcases bytes with _ | ⟨x, _ | ⟨y, rest⟩⟩
         · rfl
         · rfl
         · exact absurd (show (x :: y :: rest).length < 2 from hlen)
             (by simp [List.length_cons]))

/-- Witness for C6: an unknown DID and a one-byte RPM payload each decode
to zero samples. -/
theorem parseDIDBytes_zero_samples_witness :
    (0xDEAD ∉ knownDIDsK701) ∧ parseDIDBytes (fun _ _ => 0) 0xDEAD [1, 2] = [] ∧
      (RpmDidK701 ∈ knownDIDsK701) ∧ (RpmDidK701 ≠ CoolantDidK701) ∧
      (([5] : List Nat).length < minLenK701 RpmDidK701) ∧
      parseDIDBytes (fun _ _ => 0) RpmDidK701 [5] = [] :=
  ⟨by decide, (parseDIDBytes_zero_samples _ 0xDEAD [1, 2]).1 (by decide),
   by decide, by decide, by decide,
   (parseDIDBytes_zero_samples _ RpmDidK701 [5]).2 (by decide) (by decide) (by decide)⟩

/-- Counterexample to C6 as stated: the Coolant entry (DID 0x0009) decodes
an empty payload — shorter than its 1-byte minimum — to one sample with the
bare −40 offset, not to zero samples. -/
theorem parseDIDBytes_coolant_counterexample :
    parseDIDBytes (fun _ _ => 0) CoolantDidK701 [] = [⟨COOLANT_STREAM, -40⟩] ∧
      ([⟨COOLANT_STREAM, (-40 : ℚ)⟩] : List DIDData) ≠ ([] : List DIDData) := by
  constructor
  · have h0 : parseDIDBytes (fun _ _ => 0) CoolantDidK701 [] =
        [⟨COOLANT_STREAM, coolantTemp []⟩] := rfl
    have h1 : coolantTemp [] = -40 := by
      rw [coolantTemp]
      norm_num
    rw [h0, h1]
  · simp

/-! ## Claim C7: the discrete-stream carry-over sample -/

/-- Evaluating the didData loop on a single sample aimed at an existing
discrete stream. -/
theorem pushDidData_singleton (store : List (String × StreamSt)) (now : Int) (key : String)
    (v : ℚ) (s : StreamSt) (hkey : key ≠ "") (hlook : store.lookup key = some s)
    (hdisc : s.discrete = true) :
    pushDidData store now [⟨key, v⟩] =
      (updateStore store key (streamAdd (streamAdd s now s.latestVal) now v),
       [⟨key, now, s.latestVal⟩, ⟨key, now, v⟩]) := by
  simp only [pushDidData, List.foldl_cons, List.foldl_nil, pushDidDatum]
  rw [if_pos hkey]
  rw [hlook]
  simp [hdisc]

/-- Claim C7 (amended): for a changed RDBI response decoding to one sample
on an existing discrete stream, the scheduler pushes a carry-over sample
with the stream's previous latest value immediately before the new sample —
both carrying the *same* timestamp `now`: the source does not subtract
1 ms here (see the counterexample); on the very first response the
carry-over carries the zero value of the fresh stream's latest point. -/
theorem discrete_carry_over (pow : ℚ → ℚ → ℚ) (store : List (String × StreamSt))
    (dedup : DedupSt) (now : Int) (did : Nat) (data : List Nat)
    (key : String) (v : ℚ) (s : StreamSt)
    (hparse : parseDIDBytes pow did data = [⟨key, v⟩])
    (hkey : key ≠ "")
    (hlook : store.lookup key = some s)
    (hdisc : s.discrete = true)
    (hchanged : xorChk data ≠ dedup.lastChk ∨ data.length % 256 ≠ dedup.lastLen) :
    (processRdbiData pow store dedup now did data).2.2.1 =
      [⟨key, now, s.latestVal⟩, ⟨key, now, v⟩] := by
  rw [processRdbiData, if_pos hchanged, hparse,
    pushDidData_singleton store now key v s hkey hlook hdisc]

/-- Witness for the amended C7: the Gear scenario.  After a first Gear
payload `00 02` left the stream at latest value 2, the changed payload
`00 03` at `now = 2000` emits the carry-over `(Gear, 2000, 2)` and then
`(Gear, 2000, 3)`. -/
theorem discrete_carry_over_witness :
    parseDIDBytes (fun _ _ => 0) GearDidK701 [0, 3] = [⟨GEAR_STREAM, 3⟩] ∧
      GEAR_STREAM ≠ "" ∧
      ([(GEAR_STREAM, (⟨true, 1000, 2⟩ : StreamSt))].lookup GEAR_STREAM
        = some ⟨true, 1000, 2⟩) ∧
      (⟨true, 1000, 2⟩ : StreamSt).discrete = true ∧
      (xorChk [0, 3] ≠ (⟨2, 2⟩ : DedupSt).lastChk ∨
        ([0, 3] : List Nat).length % 256 ≠ (⟨2, 2⟩ : DedupSt).lastLen) ∧
      (processRdbiData (fun _ _ => 0) [(GEAR_STREAM, ⟨true, 1000, 2⟩)] ⟨2, 2⟩ 2000
          GearDidK701 [0, 3]).2.2.1 =
        [⟨GEAR_STREAM, 2000, 2⟩, ⟨GEAR_STREAM, 2000, 3⟩] := by
  have hparse : parseDIDBytes (fun _ _ => (0 : ℚ)) GearDidK701 [0, 3] = [⟨GEAR_STREAM, 3⟩] := by
    have h0 : parseDIDBytes (fun _ _ => (0 : ℚ)) GearDidK701 [0, 3] =
        [⟨GEAR_STREAM, (((3 : Nat) : ℚ))⟩] := rfl
    rw [h0]
    norm_num
  refine ⟨hparse, by decide, by rfl, rfl, by decide, ?_⟩
  exact discrete_carry_over (fun _ _ => 0) [(GEAR_STREAM, ⟨true, 1000, 2⟩)] ⟨2, 2⟩ 2000
    GearDidK701 [0, 3] GEAR_STREAM 3 ⟨true, 1000, 2⟩ hparse (by decide) (by rfl) rfl
    (by decide)

/-- Counterexample to C7 as stated: in the Gear scenario the carry-over
sample is pushed with timestamp `now` itself (2000), not `now − 1 ms`
(1999) as the claim asserts. -/
theorem carry_over_timestamp_counterexample :
    (processRdbiData (fun _ _ => 0) [(GEAR_STREAM, ⟨true, 1000, 2⟩)] ⟨2, 2⟩ 2000
        GearDidK701 [0, 3]).2.2.1 =
      [⟨GEAR_STREAM, 2000, 2⟩, ⟨GEAR_STREAM, 2000, 3⟩] ∧
      (⟨GEAR_STREAM, 2000, 2⟩ : Sample) ≠ ⟨GEAR_STREAM, 2000 - 1, 2⟩ := by
  constructor
  · have h0 : (processRdbiData (fun _ _ => 0) [(GEAR_STREAM, ⟨true, 1000, 2⟩)] ⟨2, 2⟩ 2000
        GearDidK701 [0, 3]).2.2.1 =
        [⟨GEAR_STREAM, 2000, 2⟩, ⟨GEAR_STREAM, 2000, ((3 : Nat) : ℚ)⟩] := rfl
    rw [h0]
    norm_num
  · intro h
    have := congrArg Sample.timestamp h
    simp at this

/-! ## Claim C10: the XOR fingerprint is not injective -/

/-- Claim C10: two successive RDBI responses `[1, 2]` then `[2, 1]` for the
same DID differ, yet have equal length and equal one-byte XOR; the
scheduler processes the first (writing it to the log) and treats the second
as unchanged: no samples are emitted and no log frame is written for it. -/
theorem xor_dedup_collision :
    ([1, 2] : List Nat) ≠ [2, 1] ∧
      ([1, 2] : List Nat).length = ([2, 1] : List Nat).length ∧
      xorChk [1, 2] = xorChk [2, 1] ∧
      processRdbiData (fun _ _ => 0) [] ⟨0, 0⟩ 1000 RpmDidK701 [1, 2]
        = ([], ⟨3, 2⟩, [], true) ∧
      processRdbiData (fun _ _ => 0) [] ⟨3, 2⟩ 2000 RpmDidK701 [2, 1]
        = ([], ⟨3, 2⟩, [], false) :=
  ⟨by decide, by decide, by decide, rfl, rfl⟩

/-! ## Claim C8: polls respect the per-DID interval -/

theorem findReady_isReady (entries : List SchedEntry) (now startIdx idx : Nat)
    (h : findReady entries now startIdx = some idx) :
    isReady (entries.getD idx ⟨0, none⟩) now = true := by
  obtain ⟨i, _, hf⟩ := List.exists_of_findSome?_eq_some h
  by_cases hr : isReady (entries.getD ((startIdx + i) % entries.length) ⟨0, none⟩) now = true
  · rw [if_pos hr] at hf
    obtain rfl : (startIdx + i) % entries.length = idx := Option.some.inj hf
    exact hr
  · rw [if_neg hr] at hf
    exact Option.noConfusion hf

/-- Claim C8: in every reachable state of the scheduler loop — any run from
any starting state over any sequence of iteration times — a poll for a DID
is only issued when that DID has never been polled, or when the time
elapsed since its last poll is at least its configured interval. -/
theorem sched_polls_respect_interval (s : SchedState) (times : List Nat) :
    ∀ ev ∈ (schedRun s times).2,
      ev.2.2.lastRead = none ∨
        ∃ t, ev.2.2.lastRead = some t ∧ t + ev.2.2.interval ≤ ev.2.1 := by
  induction times generalizing s with
  | nil =>
    intro ev hev
    simp [schedRun] at hev
  | cons t ts ih =>
    intro ev hev
    rw [schedRun, List.mem_append] at hev
    rcases hev with hev | hev
    · rcases hfind : findReady s.entries t s.startIdx with _ | idx
      · rw [schedStep, hfind] at hev
        simp at hev
      · rw [schedStep, hfind] at hev
        simp only [Option.toList_some, List.mem_singleton] at hev
        subst hev
        have hr := findReady_isReady s.entries t s.startIdx idx hfind
        rw [isReady] at hr
        rcases hlast : (s.entries.getD idx ⟨0, none⟩).lastRead with _ | t0
        · exact Or.inl rfl
        · rw [hlast] at hr
          exact Or.inr ⟨t0, rfl, by simpa using hr⟩
    · exact ih _ ev hev

/-- Witness for C8: in a single-DID run with interval 10 polled at times
0, 5 and 20, the poll issued at time 20 respects the interval (the poll
attempt at time 5 was skipped). -/
theorem sched_polls_respect_interval_witness :
    ((0, 20, (⟨10, some 0⟩ : SchedEntry)) ∈
        (schedRun ⟨[⟨10, none⟩], 0⟩ [0, 5, 20]).2) ∧
      (((0, 20, (⟨10, some 0⟩ : SchedEntry)) : Nat × Nat × SchedEntry).2.2.lastRead = none ∨
        ∃ t, ((0, 20, (⟨10, some 0⟩ : SchedEntry)) : Nat × Nat × SchedEntry).2.2.lastRead
            = some t ∧
          t + ((0, 20, (⟨10, some 0⟩ : SchedEntry)) : Nat × Nat × SchedEntry).2.2.interval ≤
            ((0, 20, (⟨10, some 0⟩ : SchedEntry)) : Nat × Nat × SchedEntry).2.1) :=
  ⟨by decide, sched_polls_respect_interval ⟨[⟨10, none⟩], 0⟩ [0, 5, 20] _ (by decide)⟩

/-! ## Claim C9: window bounds and the right-edge sentinel -/

theorem ppStart_lt_length (points : List DataPoint) (hne : points ≠ []) (leftMs : Int) :
    ppStart points leftMs < points.length := by
  have h0 : 0 < points.length := List.length_pos.mpr hne
  have hle : findStart points leftMs ≤ points.length :=
    List.findIdx_le_length _
  rw [ppStart]
  split_ifs with h <;> omega

theorem ppStart_ge (points : List DataPoint) (leftMs : Int) :
    findStart points leftMs ≤ ppStart points leftMs + 1 := by
  rw [ppStart]
  split_ifs with h <;> omega

theorem ppEndExclusive_ge (points : List DataPoint) (start : Nat) (t : Int)
    (hstart : start < points.length) :
    start + 1 ≤ ppEndExclusive points start t := by
  simp only [ppEndExclusive, findEndRaw]
  split_ifs <;> omega

theorem ppEndExclusive_le (points : List DataPoint) (start : Nat) (t : Int) :
    ppEndExclusive points start t ≤ points.length := by
  simp only [ppEndExclusive, findEndRaw]
  omega

theorem ppEnd_interior_ts_le (points : List DataPoint) (start : Nat) (t : Int) (g : Nat)
    (hg1 : start < g) (hg2 : g + 2 ≤ ppEndExclusive points start t)
    (hlt : g < points.length) :
    (points.getD g ⟨0, 0⟩).timestamp ≤ t := by
  have hdlen : g - start < (points.drop start).length := by
    rw [List.length_drop]
    omega
  have hrel : g - start < (points.drop start).findIdx fun p => decide (t < p.timestamp) := by
    have h2 := hg2
    simp only [ppEndExclusive, findEndRaw] at h2
    split_ifs at h2 <;> omega
  have hfalse := List.not_of_lt_findIdx hrel
  have hx : ¬ (t < (points.drop start)[g - start].timestamp) := by
    simpa using hfalse
  rw [List.getD_eq_getElem _ _ hlt]
  have helem : (points.drop start)[g - start] = points[g] := by
    rw [List.getElem_drop]
    congr 1
    omega
  rw [← helem]
  exact not_lt.mp hx

theorem sorted_ts_ge_left (points : List DataPoint)
    (hs : points.Pairwise fun a b => a.timestamp ≤ b.timestamp)
    (leftMs : Int) (g : Nat) (hg : findStart points leftMs ≤ g)
    (hlt : g < points.length) :
    leftMs ≤ (points.getD g ⟨0, 0⟩).timestamp := by
  rw [List.getD_eq_getElem _ _ hlt]
  have hflt : findStart points leftMs < points.length := Nat.lt_of_le_of_lt hg hlt
  have hflt2 : points.findIdx (fun p => decide (leftMs ≤ p.timestamp)) < points.length := hflt
  have hpred : leftMs ≤ (points.get ⟨findStart points leftMs, hflt⟩).timestamp := by
    have h := @List.findIdx_getElem _ (fun p => decide (leftMs ≤ p.timestamp)) points hflt2
    simpa using h
  rcases Nat.eq_or_lt_of_le hg with heq | hlt2
  · subst heq
    exact hpred
  · have hmono := List.pairwise_iff_getElem.mp hs (findStart points leftMs) g hflt hlt hlt2
    exact le_trans hpred hmono

theorem getElem_map_append_left {A B : List DataPoint} (f : DataPoint → DataPoint)
    {i : Nat} (hA : i < A.length) (hi : i < ((A ++ B).map f).length) :
    ((A ++ B).map f)[i] = f A[i] := by
  rw [List.getElem_map, List.getElem_append_left hA]

/-- C9 (amended): for a stream with a nonempty, timestamp-sorted point list,
`PostProcess` always emits the right-edge sentinel as the last point, at
`x = windowSize`; and every emitted point other than the first and the two
last ones (the one-point margins on each side plus the sentinel) has its
shifted x-coordinate inside `[0, windowSize]`.  The margin points themselves
may fall outside the window (see the counterexample). -/
theorem postProcess_window_spec (s : PPStream) (t : Int)
    (hne : s.points ≠ [])
    (hs : s.points.Pairwise fun a b => a.timestamp ≤ b.timestamp) :
    (∃ v, (postProcess s t).getLast? = some ⟨s.windowSize, v⟩) ∧
      ∀ i, 0 < i → i + 2 < (postProcess s t).length →
        0 ≤ ((postProcess s t).getD i ⟨0, 0⟩).timestamp ∧
          ((postProcess s t).getD i ⟨0, 0⟩).timestamp ≤ s.windowSize := by
  have hstart : ppStart s.points (t - s.windowSize) < s.points.length :=
    ppStart_lt_length s.points hne _
  have hend1 : ppStart s.points (t - s.windowSize) + 1 ≤
      ppEndExclusive s.points (ppStart s.points (t - s.windowSize)) t :=
    ppEndExclusive_ge _ _ _ hstart
  have hend2 : ppEndExclusive s.points (ppStart s.points (t - s.windowSize)) t ≤
      s.points.length := ppEndExclusive_le _ _ _
  have hpg := ppStart_ge s.points (t - s.windowSize)
  have hw0len : (ppWindow0 s.points t s.windowSize).length =
      ppEndExclusive s.points (ppStart s.points (t - s.windowSize)) t -
        ppStart s.points (t - s.windowSize) := by
    rw [ppWindow0, List.length_drop, List.length_take]
    omega
  have hw0ne : ppWindow0 s.points t s.windowSize ≠ [] := by
    intro h
    have hlen0 : (ppWindow0 s.points t s.windowSize).length = 0 := by rw [h]; rfl
    omega
  have hpp : postProcess s t =
      ppInvert s.max s.min
        (ppShift s.windowSize t (ppWindow0 s.points t s.windowSize) ++
          [⟨s.windowSize,
            ((ppShift s.windowSize t (ppWindow0 s.points t s.windowSize)).getLastD
              (⟨0, 0⟩ : DataPoint)).value⟩]) := by
    simp only [postProcess, if_neg hne, if_neg hw0ne]
    rfl
  refine ⟨⟨s.max + s.min -
      ((ppShift s.windowSize t (ppWindow0 s.points t s.windowSize)).getLastD
        (⟨0, 0⟩ : DataPoint)).value, ?_⟩, ?_⟩
  · rw [hpp, ppInvert, List.map_append]
    simp only [List.map_cons, List.map_nil]
    rw [List.getLast?_concat]
  · intro i hi0 hi2
    have hresl : (postProcess s t).length =
        (ppWindow0 s.points t s.windowSize).length + 1 := by
      rw [hpp]
      simp [ppInvert, ppShift, List.length_append, List.length_map]
    have hiw : i + 1 < (ppWindow0 s.points t s.windowSize).length := by omega
    have hA : i < (ppShift s.windowSize t (ppWindow0 s.points t s.windowSize)).length := by
      rw [ppShift, List.length_map]
      omega
    have hltg : ppStart s.points (t - s.windowSize) + i < s.points.length := by omega
    have hgetd : ((postProcess s t).getD i ⟨0, 0⟩).timestamp =
        (s.points.getD (ppStart s.points (t - s.windowSize) + i) ⟨0, 0⟩).timestamp +
          s.windowSize - t := by
      rw [hpp, ppInvert, List.getD_eq_getElem]
      rotate_left
      · simp only [List.length_map, List.length_append, List.length_cons, List.length_nil,
          ppShift]
        omega
      rw [getElem_map_append_left _ hA]
      simp only [ppShift, List.getElem_map, ppWindow0, List.getElem_drop, List.getElem_take]
      rw [List.getD_eq_getElem _ _ hltg]
    have hts_le := ppEnd_interior_ts_le s.points (ppStart s.points (t - s.windowSize)) t
        (ppStart s.points (t - s.windowSize) + i) (by omega) (by omega) hltg
    have hts_ge := sorted_ts_ge_left s.points hs (t - s.windowSize)
        (ppStart s.points (t - s.windowSize) + i) (by omega) hltg
    constructor
    · rw [hgetd]
      omega
    · rw [hgetd]
      omega

/-- Witness for C9 (amended): a four-point sorted stream with window 50ms at
tick 50: the sentinel closes the emitted buffer at `x = 50` and the interior
points stay inside `[0, 50]`. -/
theorem postProcess_window_spec_witness :
    (∃ v, (postProcess ⟨50, 0, 1, [⟨0, 0⟩, ⟨10, 0⟩, ⟨20, 0⟩, ⟨30, 0⟩]⟩ 50).getLast? =
        some ⟨50, v⟩) ∧
      ∀ i, 0 < i →
        i + 2 < (postProcess ⟨50, 0, 1, [⟨0, 0⟩, ⟨10, 0⟩, ⟨20, 0⟩, ⟨30, 0⟩]⟩ 50).length →
        0 ≤ ((postProcess ⟨50, 0, 1, [⟨0, 0⟩, ⟨10, 0⟩, ⟨20, 0⟩, ⟨30, 0⟩]⟩ 50).getD i
            ⟨0, 0⟩).timestamp ∧
          ((postProcess ⟨50, 0, 1, [⟨0, 0⟩, ⟨10, 0⟩, ⟨20, 0⟩, ⟨30, 0⟩]⟩ 50).getD i
            ⟨0, 0⟩).timestamp ≤ 50 :=
  postProcess_window_spec ⟨50, 0, 1, [⟨0, 0⟩, ⟨10, 0⟩, ⟨20, 0⟩, ⟨30, 0⟩]⟩ 50
    (by simp) (by norm_num [List.pairwise_cons])

set_option maxRecDepth 8192 in
/-- C9 counterexample to the claimed form: the one-point right margin
(`if end+1 < len { end++ }`) admits a point with timestamp past the tick
time, whose shifted x-coordinate exceeds `windowSize`.  With window 50ms,
points at t=0 and t=100 and a tick at t=50, the emitted buffer contains a
point at x = 100 > 50, refuting "every emitted point's x is in
[0, window_size_ms]". -/
theorem postProcess_bounds_counterexample :
    ∃ p, p ∈ postProcess ⟨50, 0, 1, [⟨0, 0⟩, ⟨100, 0⟩]⟩ 50 ∧
      ¬ (0 ≤ p.timestamp ∧
        p.timestamp ≤ (⟨50, 0, 1, [⟨0, 0⟩, ⟨100, 0⟩]⟩ : PPStream).windowSize) := by
  have h0 : postProcess ⟨50, 0, 1, [⟨0, 0⟩, ⟨100, 0⟩]⟩ 50 =
      [⟨0 + 50 - 50, 1 + 0 - 0⟩, ⟨100 + 50 - 50, 1 + 0 - 0⟩, ⟨50, 1 + 0 - 0⟩] := rfl
  refine ⟨⟨100 + 50 - 50, 1 + 0 - 0⟩, ?_, ?_⟩
  · rw [h0]
    exact List.mem_cons_of_mem _ (List.mem_cons_self _ _)
  · norm_num

end Huskki
